import Mathlib

/-!
# Verification of the contact-manager repository (`main.py`)

Shallow embedding of `src/main.py`: an interactive contact book storing
names, 10-digit phone numbers and birthdays, with an upcoming-birthday
scheduler.  Python's `datetime.date` operations used by the source
(`strptime`, `replace`, subtraction, `weekday`, `+ timedelta`) are embedded
following CPython's `datetime`/`_strptime` implementation on the proleptic
Gregorian calendar.  Strings are modelled over their character lists; the
regex class `\d` is modelled as the ASCII digits `0`-`9` (full Unicode digit
classes are out of scope of this embedding).  Dates in the model are
unbounded above (CPython caps years at 9999; the cap is modelled where the
source can observe it, namely in `date.replace` and in parsing, whose year
field has exactly four digits).
-/

namespace ContactBook

/-- The Python exception classes that the source can raise and that the
`input_error` decorator distinguishes (`KeyError`, `ValueError`,
`IndexError`), each carrying its message. -/
inductive PyErr where
  | valueError (msg : String)
  | keyError (msg : String)
  | indexError (msg : String)
deriving DecidableEq, Repr

/-! ## Calendar arithmetic (CPython `datetime` internals) -/

/-- CPython `datetime._is_leap`: `year % 4 == 0 and (year % 100 != 0 or
year % 400 == 0)`. -/
def isLeap (y : Nat) : Bool :=
  y % 4 == 0 && (y % 100 != 0 || y % 400 == 0)

/-- CPython `datetime._DAYS_IN_MONTH` table (index by month 1..12). -/
def DAYS_IN_MONTH : Nat → Nat
  | 1 => 31 | 2 => 28 | 3 => 31 | 4 => 30 | 5 => 31 | 6 => 30
  | 7 => 31 | 8 => 31 | 9 => 30 | 10 => 31 | 11 => 30 | 12 => 31
  | _ => 0

/-- CPython `datetime._days_in_month`. -/
def daysInMonth (y m : Nat) : Nat :=
  if m = 2 ∧ isLeap y then 29 else DAYS_IN_MONTH m

/-- CPython `datetime._DAYS_BEFORE_MONTH` table (index by month 1..12). -/
def DAYS_BEFORE_MONTH : Nat → Nat
  | 1 => 0 | 2 => 31 | 3 => 59 | 4 => 90 | 5 => 120 | 6 => 151
  | 7 => 181 | 8 => 212 | 9 => 243 | 10 => 273 | 11 => 304 | 12 => 334
  | _ => 0

/-- CPython `datetime._days_before_month`. -/
def daysBeforeMonth (y m : Nat) : Nat :=
  DAYS_BEFORE_MONTH m + (if 2 < m ∧ isLeap y then 1 else 0)

/-- CPython `datetime._days_before_year`:
`y = year - 1; y*365 + y//4 - y//100 + y//400`. -/
def daysBeforeYear (y : Nat) : Nat :=
  365 * (y - 1) + (y - 1) / 4 + (y - 1) / 400 - (y - 1) / 100

/-- A Python `datetime.date` value (year, month, day). -/
structure Date where
  year : Nat
  month : Nat
  day : Nat
deriving DecidableEq, Repr

/-- The invariant every constructed `datetime.date` satisfies
(the model leaves out the year-9999 upper cap, see the file comment). -/
def Date.Valid (d : Date) : Prop :=
  1 ≤ d.year ∧ 1 ≤ d.month ∧ d.month ≤ 12 ∧ 1 ≤ d.day ∧
    d.day ≤ daysInMonth d.year d.month

instance (d : Date) : Decidable d.Valid := by
  unfold Date.Valid; infer_instance

/-- CPython `date.toordinal` (`_ymd2ord`): day number in the proleptic
Gregorian calendar, with `0001-01-01` having ordinal 1. -/
def toOrdinal (d : Date) : Nat :=
  daysBeforeYear d.year + daysBeforeMonth d.year d.month + d.day

/-- CPython `date.weekday`: `(toordinal() + 6) % 7`, Monday = 0. -/
def Date.weekday (d : Date) : Nat :=
  (toOrdinal d + 6) % 7

/-- Python `date` comparison (`<`), which compares `(year, month, day)`
lexicographically. -/
def dateLt (a b : Date) : Bool :=
  a.year < b.year ∨
    (a.year = b.year ∧
      (a.month < b.month ∨ (a.month = b.month ∧ a.day < b.day)))

/-- The calendar successor of a date. -/
def nextDay (d : Date) : Date :=
  if d.day < daysInMonth d.year d.month then ⟨d.year, d.month, d.day + 1⟩
  else if d.month < 12 then ⟨d.year, d.month + 1, 1⟩
  else ⟨d.year + 1, 1, 1⟩

/-- Model of `d + timedelta(days := n)` for a valid date: CPython computes
`fromordinal(toordinal(d) + n)`; iterating the calendar successor is the
same function on valid dates (`toOrdinal_addDays` below, plus injectivity
of `toordinal` on valid dates). -/
def addDays (d : Date) : Nat → Date
  | 0 => d
  | n + 1 => nextDay (addDays d n)

/-- Python `date.replace(year := y)` on date `d`: revalidates, raising
`ValueError` (modelled as `none`) when the target year is out of
`MINYEAR..MAXYEAR` or the day does not exist in the target month
(February 29 in a non-leap year). -/
def replaceYear (d : Date) (y : Nat) : Option Date :=
  if 1 ≤ y ∧ y ≤ 9999 ∧ d.day ≤ daysInMonth y d.month then
    some ⟨y, d.month, d.day⟩
  else none

/-! ### Ordinal correctness of `nextDay` / `addDays` -/

theorem daysInMonth_pos (y m : Nat) (h1 : 1 ≤ m) (h2 : m ≤ 12) :
    1 ≤ daysInMonth y m := by
  unfold daysInMonth
  split
  · omega
  · interval_cases m <;> decide

theorem daysBeforeMonth_succ (y m : Nat) (h1 : 1 ≤ m) (h2 : m ≤ 11) :
    daysBeforeMonth y (m + 1) = daysBeforeMonth y m + daysInMonth y m := by
  unfold daysBeforeMonth daysInMonth DAYS_BEFORE_MONTH DAYS_IN_MONTH
  interval_cases m <;> cases h : isLeap y <;> simp [h]

theorem daysInYear_eq (y : Nat) :
    daysBeforeMonth y 12 + daysInMonth y 12 =
      365 + (if isLeap y then 1 else 0) := by
  unfold daysBeforeMonth daysInMonth DAYS_BEFORE_MONTH DAYS_IN_MONTH
  cases h : isLeap y <;> simp [h]

theorem daysBeforeYear_succ (y : Nat) (hy : 1 ≤ y) :
    daysBeforeYear (y + 1) =
      daysBeforeYear y + 365 + (if isLeap y then 1 else 0) := by
  obtain ⟨n, rfl⟩ : ∃ n, y = n + 1 := ⟨y - 1, by omega⟩
  unfold daysBeforeYear
  simp only [Nat.add_sub_cancel]
  have hiff : (isLeap (n + 1) = true) ↔
      ((n + 1) % 4 = 0 ∧ ((n + 1) % 100 ≠ 0 ∨ (n + 1) % 400 = 0)) := by
    simp [isLeap]
  have h100le : n / 100 ≤ n / 4 :=
    Nat.div_le_div_left (by norm_num) (by norm_num)
  by_cases h4 : (n + 1) % 4 = 0
  · by_cases h100 : (n + 1) % 100 = 0
    · by_cases h400 : (n + 1) % 400 = 0
      · rw [if_pos (hiff.mpr ⟨h4, Or.inr h400⟩)]
        have e4 : (n + 1) / 4 = n / 4 + 1 := by omega
        have e100 : (n + 1) / 100 = n / 100 + 1 := by omega
        have e400 : (n + 1) / 400 = n / 400 + 1 := by omega
        rw [e4, e100, e400]; omega
      · rw [if_neg (by rw [hiff]; push_neg; exact fun _ => ⟨h100, h400⟩)]
        have e4 : (n + 1) / 4 = n / 4 + 1 := by omega
        have e100 : (n + 1) / 100 = n / 100 + 1 := by omega
        have e400 : (n + 1) / 400 = n / 400 := by omega
        rw [e4, e100, e400]; omega
    · rw [if_pos (hiff.mpr ⟨h4, Or.inl h100⟩)]
      have e4 : (n + 1) / 4 = n / 4 + 1 := by omega
      have e100 : (n + 1) / 100 = n / 100 := by omega
      have e400 : (n + 1) / 400 = n / 400 := by omega
      rw [e4, e100, e400]; omega
  · rw [if_neg (by rw [hiff]; push_neg; exact fun h => absurd h h4)]
    have e4 : (n + 1) / 4 = n / 4 := by omega
    have e100 : (n + 1) / 100 = n / 100 := by omega
    have e400 : (n + 1) / 400 = n / 400 := by omega
    rw [e4, e100, e400]; omega

theorem toOrdinal_mk (a b c : Nat) :
    toOrdinal ⟨a, b, c⟩ = daysBeforeYear a + daysBeforeMonth a b + c := rfl

theorem toOrdinal_eq (d : Date) :
    toOrdinal d = daysBeforeYear d.year + daysBeforeMonth d.year d.month +
      d.day := rfl

theorem valid_mk (a b c : Nat) :
    (Date.mk a b c).Valid ↔
      (1 ≤ a ∧ 1 ≤ b ∧ b ≤ 12 ∧ 1 ≤ c ∧ c ≤ daysInMonth a b) := Iff.rfl

theorem nextDay_eq_day (d : Date) (h : d.day < daysInMonth d.year d.month) :
    nextDay d = ⟨d.year, d.month, d.day + 1⟩ := by
  unfold nextDay; rw [if_pos h]

theorem nextDay_eq_month (d : Date) (h1 : ¬d.day < daysInMonth d.year d.month)
    (h2 : d.month < 12) : nextDay d = ⟨d.year, d.month + 1, 1⟩ := by
  unfold nextDay; rw [if_neg h1, if_pos h2]

theorem nextDay_eq_year (d : Date) (h1 : ¬d.day < daysInMonth d.year d.month)
    (h2 : ¬d.month < 12) : nextDay d = ⟨d.year + 1, 1, 1⟩ := by
  unfold nextDay; rw [if_neg h1, if_neg h2]

theorem toOrdinal_nextDay (d : Date) (h : d.Valid) :
    toOrdinal (nextDay d) = toOrdinal d + 1 := by
  obtain ⟨hy, hm1, hm2, hd1, hd2⟩ := h
  by_cases hlt : d.day < daysInMonth d.year d.month
  · rw [nextDay_eq_day d hlt, toOrdinal_mk, toOrdinal_eq]
    omega
  · by_cases hmlt : d.month < 12
    · rw [nextDay_eq_month d hlt hmlt, toOrdinal_mk, toOrdinal_eq,
        daysBeforeMonth_succ d.year d.month hm1 (by omega)]
      omega
    · have hme : d.month = 12 := by omega
      rw [nextDay_eq_year d hlt hmlt, toOrdinal_mk, toOrdinal_eq,
        daysBeforeYear_succ d.year hy, hme]
      have hyr := daysInYear_eq d.year
      have hb : daysBeforeMonth (d.year + 1) 1 = 0 := by
        unfold daysBeforeMonth DAYS_BEFORE_MONTH; simp
      rw [hb]
      rw [hme] at hd2 hlt
      cases hL : isLeap d.year <;> rw [hL] at hyr <;> simp at hyr ⊢ <;> omega

theorem nextDay_valid (d : Date) (h : d.Valid) : (nextDay d).Valid := by
  obtain ⟨hy, hm1, hm2, hd1, hd2⟩ := h
  by_cases hlt : d.day < daysInMonth d.year d.month
  · rw [nextDay_eq_day d hlt, valid_mk]
    exact ⟨hy, hm1, hm2, by omega, by omega⟩
  · by_cases hmlt : d.month < 12
    · rw [nextDay_eq_month d hlt hmlt, valid_mk]
      exact ⟨hy, by omega, by omega, by omega,
        daysInMonth_pos d.year (d.month + 1) (by omega) (by omega)⟩
    · rw [nextDay_eq_year d hlt hmlt, valid_mk]
      exact ⟨by omega, by omega, by omega, by omega,
        daysInMonth_pos (d.year + 1) 1 (by omega) (by omega)⟩

theorem addDays_valid (d : Date) (n : Nat) (h : d.Valid) :
    (addDays d n).Valid := by
  induction n with
  | zero => exact h
  | succ k ih => exact nextDay_valid _ ih

theorem toOrdinal_addDays (d : Date) (n : Nat) (h : d.Valid) :
    toOrdinal (addDays d n) = toOrdinal d + n := by
  induction n with
  | zero => rfl
  | succ k ih =>
    have := toOrdinal_nextDay (addDays d k) (addDays_valid d k h)
    unfold addDays
    omega

theorem weekday_addDays (d : Date) (n : Nat) (h : d.Valid) :
    (addDays d n).weekday = (d.weekday + n) % 7 := by
  unfold Date.weekday
  rw [toOrdinal_addDays d n h]
  omega

/-! ## Parsing and formatting (`strptime`/`strftime` with `"%d.%m.%Y"`) -/

/-- Numeric value of a list of decimal digit characters. -/
def digitsVal (cs : List Char) : Nat :=
  cs.foldl (fun a c => 10 * a + (c.toNat - 48)) 0

/-- Model of `datetime.strptime(s, "%d.%m.%Y")`, returning `(day, month, year)`.

CPython's `_strptime` compiles the format to the regex
`(3[01]|[12]\d|0[1-9]|[1-9])\.(1[0-2]|0[1-9]|[1-9])\.(\d\d\d\d)` and
requires it to consume the whole input; since the digit classes never match
`'.'`, a successful (backtracking) match consumes exactly the maximal digit
run before each literal dot, so the day group is equivalent to 1-2 digits
with value 1..31, the month group to 1-2 digits with value 1..12, and the
year group to exactly 4 digits.  The matched fields are then passed to the
`datetime` constructor, which raises `ValueError` unless
`MINYEAR = 1 ≤ year` and `day ≤ days_in_month(year, month)`. -/
def parseDMY (cs : List Char) : Option (Nat × Nat × Nat) :=
  let ds := cs.takeWhile Char.isDigit
  match cs.dropWhile Char.isDigit with
  | [] => none
  | c1 :: r2 =>
    if c1 = '.' then
      let ms := r2.takeWhile Char.isDigit
      match r2.dropWhile Char.isDigit with
      | [] => none
      | c2 :: r4 =>
        if c2 = '.' then
          let ys := r4.takeWhile Char.isDigit
          if r4.dropWhile Char.isDigit = [] ∧
              1 ≤ ds.length ∧ ds.length ≤ 2 ∧
              1 ≤ ms.length ∧ ms.length ≤ 2 ∧ ys.length = 4 ∧
              1 ≤ digitsVal ds ∧ digitsVal ds ≤ 31 ∧
              1 ≤ digitsVal ms ∧ digitsVal ms ≤ 12 ∧ 1 ≤ digitsVal ys ∧
              digitsVal ds ≤ daysInMonth (digitsVal ys) (digitsVal ms)
          then some (digitsVal ds, digitsVal ms, digitsVal ys)
          else none
        else none
    else none

/-- Zero-pad a number to two digits (`strftime` `%d`, `%m`). -/
def pad2 (n : Nat) : String :=
  if n < 10 then "0" ++ toString n else toString n

/-- Render a year (`strftime` `%Y`); all years the claims touch have four
digits, where every platform agrees on the output. -/
def pad4 (n : Nat) : String :=
  if n < 10 then "000" ++ toString n
  else if n < 100 then "00" ++ toString n
  else if n < 1000 then "0" ++ toString n
  else toString n

/-- Model of `date.strftime("%d.%m.%Y")`. -/
def formatDate (d : Date) : String :=
  pad2 d.day ++ "." ++ pad2 d.month ++ "." ++ pad4 d.year

/-! ## Data model (`Field` subclasses, `Record`, `AddressBook`)

The `Field` wrapper classes (`Name`, `Phone`, `Birthday`) only hold their
`value` string, so records are modelled directly over the strings. -/

/-- Model of `Phone.__init__`'s validation: `re.fullmatch(r'\d{10}', value)`. -/
def phoneOk (s : String) : Bool :=
  s.length == 10 && s.data.all Char.isDigit

/-- Model of `Birthday.__init__`'s validation:
`datetime.strptime(value, "%d.%m.%Y")` succeeds. -/
def dateOk (s : String) : Bool :=
  (parseDMY s.data).isSome

/-- A `Record`: a name, a list of phone values, an optional birthday value
(the validated `DD.MM.YYYY` string, as stored by the source). -/
structure Record where
  name : String
  phones : List String
  birthday : Option String
deriving DecidableEq, Repr

/-- Model of `Record.add_phone`: construct `Phone(phone)` (raising `ValueError` on
bad input) and append it. -/
def Record.add_phone (r : Record) (phone : String) : Except PyErr Record :=
  if phoneOk phone then .ok { r with phones := r.phones ++ [phone] }
  else .error (.valueError "Phone must be 10 digits.")

/-- Model of `Record.edit_phone`: validate the new value, then overwrite every
stored phone equal to `old_phone`; raise if none matched. -/
def Record.edit_phone (r : Record) (old_phone new_phone : String) :
    Except PyErr Record :=
  if ¬ phoneOk new_phone then .error (.valueError "Phone must be 10 digits.")
  else if r.phones.contains old_phone then
    .ok { r with
      phones := r.phones.map fun p =>
        if p = old_phone then new_phone else p }
  else .error (.valueError "Phone not found.")

/-- Model of `Record.find_phone`. -/
def Record.find_phone (r : Record) (phone : String) : Option String :=
  r.phones.find? fun p => p == phone

/-- Model of `Record.add_birthday`: construct `Birthday(birthday)` (raising
`ValueError` on bad input) and store it, overwriting any previous value. -/
def Record.add_birthday (r : Record) (birthday : String) :
    Except PyErr Record :=
  if dateOk birthday then .ok { r with birthday := some birthday }
  else .error (.valueError "Invalid date format. Use DD.MM.YYYY")

/-- Model of `AddressBook.data`: an insertion-ordered mapping from name to record,
modelled as a list with unique names; updating an existing key keeps its
position, as a Python dict does. -/
abbrev AddressBook := List Record

/-- Model of `AddressBook.add_record`: `self.data[record.name.value] = record`. -/
def AddressBook.add_record : AddressBook → Record → AddressBook
  | [], r => [r]
  | x :: xs, r =>
    if x.name = r.name then r :: xs else x :: AddressBook.add_record xs r

/-- Model of `AddressBook.find`: `self.data.get(name)`. -/
def AddressBook.find (book : AddressBook) (name : String) : Option Record :=
  book.find? fun r => r.name == name

/-- Model of `AddressBook.delete`. -/
def AddressBook.delete (book : AddressBook) (name : String) : AddressBook :=
  book.filter fun r => r.name ≠ name

/-! ## The birthday scheduler (`AddressBook.get_upcoming_birthdays`) -/

/-- One entry of the scheduler's output. -/
structure Entry where
  name : String
  congratulation_date : String
deriving DecidableEq, Repr

/-- Lines 93-96 of the source: `b_date.replace(year=today.year)`, then, if
that is strictly before today, `replace(year=today.year + 1)`; `none` when
the `replace` call raises `ValueError` (February 29 mapped into a non-leap
year). -/
def anniversaryOf (b today : Date) : Option Date :=
  match replaceYear b today.year with
  | none => none
  | some t => if dateLt t today then replaceYear b (today.year + 1) else some t

/-- Line 101-102 of the source: shift a weekend anniversary forward by
`7 - weekday` days. -/
def weekendAdjust (d : Date) : Date :=
  if 5 ≤ d.weekday then addDays d (7 - d.weekday) else d

/-- The loop body of `get_upcoming_birthdays` for a single record:
`ok none` when the record is skipped, `ok (some entry)` when it is
included, `error` when an iteration raises `ValueError`. -/
def upcomingOfRecord (r : Record) (today : Date) : Except PyErr (Option Entry) :=
  match r.birthday with
  | none => .ok none
  | some bs =>
    match parseDMY bs.data with
    | none => .error (.valueError "time data does not match format .d...m...Y.")
    | some (dd, md, yd) =>
      match anniversaryOf ⟨yd, md, dd⟩ today with
      | none => .error (.valueError "day is out of range for month")
      | some anniv =>
        let days : Int := (toOrdinal anniv : Int) - (toOrdinal today : Int)
        if 0 ≤ days ∧ days ≤ 7 then
          .ok (some ⟨r.name, formatDate (weekendAdjust anniv)⟩)
        else .ok none

/-- Model of `AddressBook.get_upcoming_birthdays` over the records in store order,
with `today = datetime.today().date()` passed explicitly; an exception
raised mid-loop discards the whole result. -/
def AddressBook.get_upcoming_birthdays :
    AddressBook → Date → Except PyErr (List Entry)
  | [], _ => .ok []
  | r :: rs, today =>
    match upcomingOfRecord r today with
    | .error e => .error e
    | .ok none => AddressBook.get_upcoming_birthdays rs today
    | .ok (some entry) =>
      match AddressBook.get_upcoming_birthdays rs today with
      | .error e => .error e
      | .ok l => .ok (entry :: l)

/-! ## Command handlers and the dispatch loop -/

/-- How the `input_error` decorator renders each caught exception class. -/
def renderCaught : PyErr → String
  | .keyError _ => "Contact not found."
  | .valueError m => m
  | .indexError _ => "Invalid command format."

/-- The `input_error` decorator: the handler's result on success, the
rendered message (and the untouched book: every handler raises before
mutating) on a caught exception. -/
def input_error (res : Except PyErr (String × AddressBook))
    (book : AddressBook) : String × AddressBook :=
  match res with
  | .ok r => r
  | .error e => (renderCaught e, book)

/-- Model of `add_contact`. -/
def add_contact (args : List String) (book : AddressBook) :
    Except PyErr (String × AddressBook) :=
  match args with
  | name :: phone :: _ =>
    let record := (AddressBook.find book name).getD ⟨name, [], none⟩
    match record.add_phone phone with
    | .error e => .error e
    | .ok r1 => .ok ("Contact added/updated.", AddressBook.add_record book r1)
  | _ => .error (.valueError "Give me name and phone please.")

/-- Model of `change_contact`. -/
def change_contact (args : List String) (book : AddressBook) :
    Except PyErr (String × AddressBook) :=
  match args with
  | [name, old_phone, new_phone] =>
    match AddressBook.find book name with
    | some record =>
      match record.edit_phone old_phone new_phone with
      | .error e => .error e
      | .ok r1 => .ok ("Phone changed.", AddressBook.add_record book r1)
    | none => .error (.keyError "Contact not found.")
  | _ => .error (.valueError "Give me name, old phone and new phone.")

/-- Model of `show_phone`. -/
def show_phone (args : List String) (book : AddressBook) :
    Except PyErr (String × AddressBook) :=
  match args with
  | name :: _ =>
    match AddressBook.find book name with
    | some record => .ok (String.intercalate "; " record.phones, book)
    | none => .error (.keyError "Contact not found.")
  | [] => .error (.valueError "Enter contact name.")

/-- Model of `Record.__str__`. -/
def recordStr (r : Record) : String :=
  "Contact name: " ++ r.name ++
    (match r.birthday with
     | some b => ", birthday: " ++ b
     | none => "") ++
    ", phones: " ++ String.intercalate "; " r.phones

/-- Model of `show_all` (raises nothing). -/
def show_all (book : AddressBook) : String :=
  if book = [] then "No contacts found."
  else String.intercalate "\n" (book.map recordStr)

/-- The module-level `add_birthday` handler. -/
def add_birthday (args : List String) (book : AddressBook) :
    Except PyErr (String × AddressBook) :=
  match args with
  | [name, birthday] =>
    match AddressBook.find book name with
    | some record =>
      match record.add_birthday birthday with
      | .error e => .error e
      | .ok r1 => .ok ("Birthday added.", AddressBook.add_record book r1)
    | none => .error (.keyError "Contact not found.")
  | _ => .error (.valueError "Give me name and birthday in DD.MM.YYYY format.")

/-- Model of `show_birthday`. -/
def show_birthday (args : List String) (book : AddressBook) :
    Except PyErr (String × AddressBook) :=
  match args with
  | name :: _ =>
    match AddressBook.find book name with
    | some record =>
      match record.birthday with
      | some b => .ok (b, book)
      | none => .ok ("No birthday set.", book)
    | none => .ok ("Contact not found.", book)
  | [] => .error (.valueError "Enter contact name.")

/-- The `birthdays` handler (its `args` are unused by the source). -/
def birthdays (args : List String) (book : AddressBook) (today : Date) :
    Except PyErr (String × AddressBook) :=
  match AddressBook.get_upcoming_birthdays book today with
  | .error e => .error e
  | .ok [] => .ok ("No birthdays in next week.", book)
  | .ok upcoming =>
    .ok (String.intercalate "\n"
      (upcoming.map fun e => e.name ++ ": " ++ e.congratulation_date), book)

/-- Whitespace tokenizer over the character list: splits on runs of
whitespace and produces no empty tokens, which is exactly what Python's
`str.split()` (with no argument, after `strip()`) does.  `acc` holds the
characters of the token being read, in reverse. -/
def splitTokens : List Char → List Char → List String
  | [], acc => if acc = [] then [] else [String.mk acc.reverse]
  | c :: rest, acc =>
    if c.isWhitespace then
      if acc = [] then splitTokens rest []
      else String.mk acc.reverse :: splitTokens rest []
    else splitTokens rest (c :: acc)

/-- Model of `parse_input`: `input_str.strip().split()`. -/
def parse_input (s : String) : List String :=
  splitTokens s.data []

/-- Outcome of one iteration of `main`'s loop on one input line. -/
inductive StepResult where
  | quit (msg : String)
  | next (msg : String) (book : AddressBook)
  | crash (e : PyErr)
deriving DecidableEq, Repr

/-- One iteration of `main`'s `while True` loop.  The unpacking
`command, *args = parse_input(user_input)` is OUTSIDE every
`input_error`-wrapped handler, so an empty split makes the raised
`ValueError` escape the loop (modelled as `crash`). -/
def step (line : String) (book : AddressBook) (today : Date) : StepResult :=
  match parse_input line with
  | [] =>
    .crash (.valueError "not enough values to unpack (expected at least 1, got 0)")
  | command :: args =>
    if command = "close" ∨ command = "exit" then .quit "Good bye!"
    else if command = "hello" then .next "How can I help you?" book
    else if command = "add" then
      let p := input_error (add_contact args book) book
      .next p.1 p.2
    else if command = "change" then
      let p := input_error (change_contact args book) book
      .next p.1 p.2
    else if command = "phone" then
      let p := input_error (show_phone args book) book
      .next p.1 p.2
    else if command = "all" then .next (show_all book) book
    else if command = "add-birthday" then
      let p := input_error (add_birthday args book) book
      .next p.1 p.2
    else if command = "show-birthday" then
      let p := input_error (show_birthday args book) book
      .next p.1 p.2
    else if command = "birthdays" then
      let p := input_error (birthdays args book today) book
      .next p.1 p.2
    else .next "Invalid command." book

/-- The book after one loop iteration (unchanged when the loop exits or the
exception escapes). -/
def runLine (today : Date) (book : AddressBook) (line : String) : AddressBook :=
  match step line book today with
  | .next _ b => b
  | _ => book

/-- The book reached by feeding a list of input lines to `main`'s loop,
starting from the empty `AddressBook()`. -/
def run (today : Date) (lines : List String) : AddressBook :=
  lines.foldl (runLine today) []

/-! ## Characterizations and helper lemmas -/

/-- The phone format as the spec words it: string of exactly 10 digits. -/
def IsTenDigits (s : String) : Prop :=
  s.length = 10 ∧ ∀ c ∈ s.data, c.isDigit = true

instance (s : String) : Decidable (IsTenDigits s) := by
  unfold IsTenDigits; infer_instance

theorem phoneOk_iff (s : String) : phoneOk s = true ↔ IsTenDigits s := by
  simp [phoneOk, IsTenDigits, List.all_eq_true]

theorem find_name_eq (book : AddressBook) (n : String) (r : Record)
    (h : AddressBook.find book n = some r) : r.name = n := by
  have := List.find?_some h
  simpa using this

theorem find_mem (book : AddressBook) (n : String) (r : Record)
    (h : AddressBook.find book n = some r) : r ∈ book :=
  List.mem_of_find?_eq_some h

theorem find_add_record_self (book : AddressBook) (r : Record) :
    AddressBook.find (AddressBook.add_record book r) r.name = some r := by
  induction book with
  | nil => simp [AddressBook.add_record, AddressBook.find]
  | cons x xs ih =>
    unfold AddressBook.add_record
    by_cases hx : x.name = r.name
    · rw [if_pos hx]
      simp [AddressBook.find]
    · rw [if_neg hx]
      unfold AddressBook.find at ih ⊢
      simp only [List.find?]
      have : (x.name == r.name) = false := by
        simpa using hx
      rw [this]
      exact ih

/-! ## Claim C3 -/

/-- C3: constructing a `Phone` value from `s` (as `add_phone` does)
succeeds if and only if `s` consists of exactly 10 digits; otherwise it
fails with the `ValueError` carrying the phone-validation message. -/
theorem phone_construction_iff (r : Record) (s : String) :
    ((∃ r', r.add_phone s = .ok r') ↔ IsTenDigits s) ∧
    (¬ IsTenDigits s →
      r.add_phone s = .error (.valueError "Phone must be 10 digits.")) := by
  constructor
  · constructor
    · rintro ⟨r', h⟩
      by_cases hp : phoneOk s = true
      · exact (phoneOk_iff s).mp hp
      · unfold Record.add_phone at h
        rw [if_neg hp] at h
        simp at h
    · intro hs
      exact ⟨_, by unfold Record.add_phone; rw [if_pos ((phoneOk_iff s).mpr hs)]⟩
  · intro hs
    unfold Record.add_phone
    rw [if_neg fun hp => hs ((phoneOk_iff s).mp hp)]

/-- Witness for C3 at concrete inputs. -/
theorem phone_construction_iff_witness :
    Record.add_phone ⟨"Ann", [], none⟩ "1112223333" =
      .ok ⟨"Ann", ["1112223333"], none⟩ ∧
    Record.add_phone ⟨"Ann", [], none⟩ "11122x3333" =
      .error (.valueError "Phone must be 10 digits.") := by
  constructor
  · obtain ⟨r', hr⟩ :=
      (phone_construction_iff ⟨"Ann", [], none⟩ "1112223333").1.mpr (by decide)
    rfl
  · exact (phone_construction_iff ⟨"Ann", [], none⟩ "11122x3333").2 (by decide)

/-! ## Claim C5 -/

/-- C5: `edit_phone(old, new)` fails with the phone-validation
`ValueError` when `new` is not exactly 10 digits; otherwise fails with the
"Phone not found." error when no stored phone equals `old`; otherwise
replaces every phone equal to `old` with `new` and leaves all other phones
unchanged. -/
theorem edit_phone_spec (r : Record) (old_phone new_phone : String) :
    (¬ IsTenDigits new_phone →
      r.edit_phone old_phone new_phone =
        .error (.valueError "Phone must be 10 digits.")) ∧
    (IsTenDigits new_phone → old_phone ∉ r.phones →
      r.edit_phone old_phone new_phone =
        .error (.valueError "Phone not found.")) ∧
    (IsTenDigits new_phone → old_phone ∈ r.phones →
      r.edit_phone old_phone new_phone =
        .ok { r with
          phones := r.phones.map fun p =>
            if p = old_phone then new_phone else p }) := by
  refine ⟨fun hv => ?_, fun hv hnm => ?_, fun hv hm => ?_⟩
  · unfold Record.edit_phone
    rw [if_pos fun hp => hv ((phoneOk_iff new_phone).mp hp)]
  · unfold Record.edit_phone
    rw [if_neg fun hp => hp ((phoneOk_iff new_phone).mpr hv)]
    rw [if_neg (by simpa using hnm)]
  · unfold Record.edit_phone
    rw [if_neg fun hp => hp ((phoneOk_iff new_phone).mpr hv)]
    rw [if_pos (by simpa using hm)]

/-- Witness for C5 at concrete inputs: a successful replacement of every
occurrence, and the not-found failure. -/
theorem edit_phone_spec_witness :
    Record.edit_phone ⟨"Ann", ["1112223333", "5556667777", "1112223333"], none⟩
        "1112223333" "4445556666" =
      .ok ⟨"Ann", ["4445556666", "5556667777", "4445556666"], none⟩ ∧
    Record.edit_phone ⟨"Bob", ["5556667777"], none⟩ "1112223333" "4445556666" =
      .error (.valueError "Phone not found.") := by
  constructor
  · have h :=
      (edit_phone_spec ⟨"Ann", ["1112223333", "5556667777", "1112223333"], none⟩
        "1112223333" "4445556666").2.2 (by decide) (by decide)
    simpa using h
  · exact (edit_phone_spec ⟨"Bob", ["5556667777"], none⟩
      "1112223333" "4445556666").2.1 (by decide) (by decide)

/-! ## Claim C6 -/

/-- C6: an `add n p` command with a valid phone `p`, when a record named
`n` exists, appends `p` to that record's phone list (even when `p` already
occurs) and keeps its other phones and its birthday; the record is reused,
not overwritten. -/
theorem add_contact_existing_appends (book : AddressBook) (n p : String)
    (rest : List String) (r : Record)
    (hfind : AddressBook.find book n = some r)
    (hp : IsTenDigits p) :
    add_contact (n :: p :: rest) book =
      .ok ("Contact added/updated.",
        AddressBook.add_record book { r with phones := r.phones ++ [p] }) ∧
    AddressBook.find
        (AddressBook.add_record book { r with phones := r.phones ++ [p] }) n
      = some { r with phones := r.phones ++ [p] } := by
  constructor
  · simp only [add_contact, hfind, Option.getD_some]
    unfold Record.add_phone
    rw [if_pos ((phoneOk_iff p).mpr hp)]
  · have hn : ({ r with phones := r.phones ++ [p] } : Record).name = n :=
      find_name_eq book n r hfind
    rw [← hn]
    exact find_add_record_self book _

/-- Witness for C6: adding a duplicate phone to an existing record with a
birthday appends it and preserves the birthday. -/
theorem add_contact_existing_appends_witness :
    add_contact ["Ann", "1112223333"]
        [⟨"Ann", ["1112223333"], some "29.03.1990"⟩] =
      .ok ("Contact added/updated.",
        [⟨"Ann", ["1112223333", "1112223333"], some "29.03.1990"⟩]) ∧
    AddressBook.find [⟨"Ann", ["1112223333", "1112223333"], some "29.03.1990"⟩]
        "Ann" = some ⟨"Ann", ["1112223333", "1112223333"], some "29.03.1990"⟩ := by
  have h := add_contact_existing_appends
    [⟨"Ann", ["1112223333"], some "29.03.1990"⟩] "Ann" "1112223333" []
    ⟨"Ann", ["1112223333"], some "29.03.1990"⟩ (by decide) (by decide)
  constructor
  · have h1 := h.1
    simpa using h1
  · have h2 := h.2
    simpa using h2

/-! ## Claim C9 -/

/-- C9: on a record that already has a birthday, `add-birthday` with a
valid `DD.MM.YYYY` string overwrites the stored value (so a record holds at
most one birthday), while an invalid string raises the date `ValueError`
before any assignment, leaving the book - and hence the stored birthday -
unchanged at the dispatch boundary. -/
theorem add_birthday_overwrites (book : AddressBook) (n s bs0 : String)
    (r : Record)
    (hfind : AddressBook.find book n = some r)
    (hb : r.birthday = some bs0) :
    (dateOk s = true →
      add_birthday [n, s] book =
        .ok ("Birthday added.",
          AddressBook.add_record book { r with birthday := some s }) ∧
      AddressBook.find
          (AddressBook.add_record book { r with birthday := some s }) n
        = some { r with birthday := some s }) ∧
    (dateOk s = false →
      input_error (add_birthday [n, s] book) book
        = ("Invalid date format. Use DD.MM.YYYY", book)) := by
  constructor
  · intro hy
    constructor
    · simp only [add_birthday, hfind]
      unfold Record.add_birthday
      rw [if_pos hy]
    · have hn : ({ r with birthday := some s } : Record).name = n :=
        find_name_eq book n r hfind
      rw [← hn]
      exact find_add_record_self book _
  · intro hy
    simp only [add_birthday, hfind]
    unfold Record.add_birthday
    rw [if_neg (by simp [hy])]
    rfl

/-- Witness for C9: a record with birthday `29.03.1990` gets it replaced by
a new valid date, and keeps the book unchanged on an invalid one. -/
theorem add_birthday_overwrites_witness :
    (add_birthday ["Ann", "01.04.1991"]
        [⟨"Ann", ["1112223333"], some "29.03.1990"⟩] =
      .ok ("Birthday added.",
        [⟨"Ann", ["1112223333"], some "01.04.1991"⟩])) ∧
    (input_error
        (add_birthday ["Ann", "32.01.1991"]
          [⟨"Ann", ["1112223333"], some "29.03.1990"⟩])
        [⟨"Ann", ["1112223333"], some "29.03.1990"⟩]
      = ("Invalid date format. Use DD.MM.YYYY",
          [⟨"Ann", ["1112223333"], some "29.03.1990"⟩])) := by
  constructor
  · have h := (add_birthday_overwrites
      [⟨"Ann", ["1112223333"], some "29.03.1990"⟩] "Ann" "01.04.1991"
      "29.03.1990" ⟨"Ann", ["1112223333"], some "29.03.1990"⟩
      (by decide) (by decide)).1 (by decide)
    have h1 := h.1
    simpa using h1
  · exact (add_birthday_overwrites
      [⟨"Ann", ["1112223333"], some "29.03.1990"⟩] "Ann" "32.01.1991"
      "29.03.1990" ⟨"Ann", ["1112223333"], some "29.03.1990"⟩
      (by decide) (by decide)).2 (by decide)

/-! ## Claim C4 -/

theorem takeWhile_append_cons (p : Char → Bool) (pre : List Char) (c : Char)
    (post : List Char) (hpre : ∀ x ∈ pre, p x = true) (hc : p c = false) :
    (pre ++ c :: post).takeWhile p = pre ∧
      (pre ++ c :: post).dropWhile p = c :: post := by
  induction pre with
  | nil => simp [List.takeWhile_cons, List.dropWhile_cons, hc]
  | cons a as ih =>
    have ha : p a = true := hpre a (List.mem_cons_self a as)
    have ih' := ih fun x hx => hpre x (List.mem_cons_of_mem a hx)
    simp [List.takeWhile_cons, List.dropWhile_cons, ha, ih'.1, ih'.2]

theorem takeWhile_of_all (p : Char → Bool) (l : List Char)
    (h : ∀ x ∈ l, p x = true) :
    l.takeWhile p = l ∧ l.dropWhile p = [] := by
  induction l with
  | nil => simp
  | cons a as ih =>
    have ha : p a = true := h a (List.mem_cons_self a as)
    have ih' := ih fun x hx => h x (List.mem_cons_of_mem a hx)
    simp [List.takeWhile_cons, List.dropWhile_cons, ha, ih'.1, ih'.2]

/-- Declarative characterization of what `strptime("%d.%m.%Y")` accepts:
day and month groups of one or two digit characters (zero padding
optional), a four-digit year group, dot separators, and field values that
form a constructible calendar date. -/
def AmendedDateFormat (s : String) : Prop :=
  ∃ ds ms ys : List Char,
    s.data = ds ++ '.' :: (ms ++ '.' :: ys) ∧
    (∀ c ∈ ds, c.isDigit = true) ∧ (∀ c ∈ ms, c.isDigit = true) ∧
    (∀ c ∈ ys, c.isDigit = true) ∧
    1 ≤ ds.length ∧ ds.length ≤ 2 ∧ 1 ≤ ms.length ∧ ms.length ≤ 2 ∧
    ys.length = 4 ∧
    1 ≤ digitsVal ds ∧ digitsVal ds ≤ 31 ∧
    1 ≤ digitsVal ms ∧ digitsVal ms ≤ 12 ∧ 1 ≤ digitsVal ys ∧
    digitsVal ds ≤ daysInMonth (digitsVal ys) (digitsVal ms)

theorem parseDMY_isSome_iff (cs : List Char) :
    (parseDMY cs).isSome = true ↔
      ∃ ds ms ys : List Char,
        cs = ds ++ '.' :: (ms ++ '.' :: ys) ∧
        (∀ c ∈ ds, c.isDigit = true) ∧ (∀ c ∈ ms, c.isDigit = true) ∧
        (∀ c ∈ ys, c.isDigit = true) ∧
        1 ≤ ds.length ∧ ds.length ≤ 2 ∧ 1 ≤ ms.length ∧ ms.length ≤ 2 ∧
        ys.length = 4 ∧
        1 ≤ digitsVal ds ∧ digitsVal ds ≤ 31 ∧
        1 ≤ digitsVal ms ∧ digitsVal ms ≤ 12 ∧ 1 ≤ digitsVal ys ∧
        digitsVal ds ≤ daysInMonth (digitsVal ys) (digitsVal ms) := by
  constructor
  · intro h
    simp only [parseDMY] at h
    split at h
    · simp at h
    · rename_i c1 r2 heq1
      split at h
      · rename_i hc1
        subst hc1
        split at h
        · simp at h
        · rename_i c2 r4 heq2
          split at h
          · rename_i hc2
            subst hc2
            split at h
            · rename_i hcond
              obtain ⟨hnil, hcond'⟩ := hcond
              refine ⟨cs.takeWhile Char.isDigit, r2.takeWhile Char.isDigit,
                r4.takeWhile Char.isDigit, ?_, ?_, ?_, ?_, ?_⟩
              · have e1 : cs.takeWhile Char.isDigit ++ cs.dropWhile Char.isDigit
                    = cs := List.takeWhile_append_dropWhile _ _
                have e2 : r2.takeWhile Char.isDigit ++ r2.dropWhile Char.isDigit
                    = r2 := List.takeWhile_append_dropWhile _ _
                have e4 : r4.takeWhile Char.isDigit ++ r4.dropWhile Char.isDigit
                    = r4 := List.takeWhile_append_dropWhile _ _
                rw [hnil, List.append_nil] at e4
                rw [heq2] at e2
                rw [heq1] at e1
                rw [e4, e2, e1]
              · exact fun c hc => List.mem_takeWhile_imp hc
              · exact fun c hc => List.mem_takeWhile_imp hc
              · exact fun c hc => List.mem_takeWhile_imp hc
              · exact hcond'
            · simp at h
          · simp at h
      · simp at h
  · rintro ⟨ds, ms, ys, rfl, hds, hms, hys, hrest⟩
    have e1 := takeWhile_append_cons Char.isDigit ds '.'
      (ms ++ '.' :: ys) hds (by decide)
    have e2 := takeWhile_append_cons Char.isDigit ms '.' ys hms (by decide)
    have e3 := takeWhile_of_all Char.isDigit ys hys
    simp only [parseDMY, e1.1, e1.2, e2.1, e2.2, e3.1, e3.2, if_true,
      eq_self_iff_true, true_and]
    rw [if_pos hrest]
    rfl

/-- Construction of `Birthday` succeeds exactly when `strptime` accepts. -/
theorem birthday_ok_iff_dateOk (r : Record) (s : String) :
    (∃ r', r.add_birthday s = .ok r') ↔ dateOk s = true := by
  unfold Record.add_birthday
  by_cases hd : dateOk s = true
  · rw [if_pos hd]
    exact ⟨fun _ => hd, fun _ => ⟨_, rfl⟩⟩
  · rw [if_neg hd]
    simp [hd]

/-- C4 (amended): constructing a `Birthday` from `s` (as `add_birthday`
does) succeeds if and only if `s` is day-dot-month-dot-year where the day
and month groups have one or two digits (zero padding optional, values
1..31 and 1..12), the year group has exactly four digits with value at
least 1, and the day exists in the given month of the given year; any
other string fails with the date-format `ValueError`. -/
theorem birthday_construction_iff (r : Record) (s : String) :
    ((∃ r', r.add_birthday s = .ok r') ↔ AmendedDateFormat s) ∧
    (¬ AmendedDateFormat s →
      r.add_birthday s =
        .error (.valueError "Invalid date format. Use DD.MM.YYYY")) := by
  have hiff : dateOk s = true ↔ AmendedDateFormat s := by
    unfold dateOk AmendedDateFormat
    exact parseDMY_isSome_iff s.data
  constructor
  · exact (birthday_ok_iff_dateOk r s).trans hiff
  · intro hA
    unfold Record.add_birthday
    rw [if_neg fun hd => hA (hiff.mp hd)]

/-- Witness for C4's amended theorem: the non-format string `"01.01.99"`
(two-digit year) is rejected with the date `ValueError`. -/
theorem birthday_construction_iff_witness :
    Record.add_birthday ⟨"Ann", [], none⟩ "01.01.99" =
      .error (.valueError "Invalid date format. Use DD.MM.YYYY") :=
  (birthday_construction_iff ⟨"Ann", [], none⟩ "01.01.99").2
    (fun hA =>
      absurd ((parseDMY_isSome_iff ("01.01.99".data)).mpr hA) (by decide))

/-- The date format exactly as claim C4 words it: strict `DD.MM.YYYY` -
two-digit day, two-digit month, four-digit year - denoting a valid
calendar date. -/
def strictDateFormat (s : String) : Bool :=
  match s.data with
  | [d1, d2, p1, m1, m2, p2, y1, y2, y3, y4] =>
    d1.isDigit && d2.isDigit && p1 == '.' && m1.isDigit && m2.isDigit &&
    p2 == '.' && y1.isDigit && y2.isDigit && y3.isDigit && y4.isDigit &&
    decide (1 ≤ digitsVal [d1, d2]) &&
    decide (digitsVal [d1, d2] ≤
      daysInMonth (digitsVal [y1, y2, y3, y4]) (digitsVal [m1, m2])) &&
    decide (1 ≤ digitsVal [m1, m2]) && decide (digitsVal [m1, m2] ≤ 12) &&
    decide (1 ≤ digitsVal [y1, y2, y3, y4])
  | _ => false

/-- Counterexample to C4 as stated: `"1.1.2000"` is not strict
`DD.MM.YYYY` (the day and month are unpadded), yet `Birthday` construction
succeeds on it, because `strptime`'s `%d`/`%m` accept one-digit groups. -/
theorem birthday_strict_counterexample :
    Record.add_birthday ⟨"Ann", [], none⟩ "1.1.2000" =
      .ok ⟨"Ann", [], some "1.1.2000"⟩ ∧
    strictDateFormat "1.1.2000" = false := by
  constructor
  · rfl
  · decide

/-! ## Claims C1 and C2: the scheduler's window and weekend shift -/

theorem parseDMY_bounds (cs : List Char) (d m y : Nat)
    (h : parseDMY cs = some (d, m, y)) :
    1 ≤ d ∧ d ≤ 31 ∧ 1 ≤ m ∧ m ≤ 12 ∧ 1 ≤ y ∧ d ≤ daysInMonth y m := by
  simp only [parseDMY] at h
  split at h
  · simp at h
  · split at h
    · split at h
      · simp at h
      · split at h
        · split at h
          · rename_i hcond
            injection h with h'
            injection h' with e1 h''
            injection h'' with e2 e3
            subst e1
            subst e2
            subst e3
            exact ⟨hcond.2.2.2.2.2.2.1, hcond.2.2.2.2.2.2.2.1,
              hcond.2.2.2.2.2.2.2.2.1, hcond.2.2.2.2.2.2.2.2.2.1,
              hcond.2.2.2.2.2.2.2.2.2.2.1, hcond.2.2.2.2.2.2.2.2.2.2.2⟩
          · simp at h
        · simp at h
    · simp at h

theorem replaceYear_some (b : Date) (y : Nat) (t : Date)
    (h : replaceYear b y = some t) :
    t = ⟨y, b.month, b.day⟩ ∧ 1 ≤ y ∧ y ≤ 9999 ∧
      b.day ≤ daysInMonth y b.month := by
  unfold replaceYear at h
  split at h
  · rename_i hc
    injection h with h'
    exact ⟨h'.symm, hc⟩
  · simp at h

theorem anniversaryOf_fields (b today : Date) (anniv : Date)
    (h : anniversaryOf b today = some anniv) :
    anniv.month = b.month ∧ anniv.day = b.day ∧ 1 ≤ anniv.year ∧
      anniv.day ≤ daysInMonth anniv.year anniv.month := by
  unfold anniversaryOf at h
  split at h
  · simp at h
  · rename_i t heq
    split at h
    · obtain ⟨rfl, h1, h2, h3⟩ := replaceYear_some _ _ _ h
      exact ⟨rfl, rfl, h1, h3⟩
    · injection h with h'
      subst h'
      obtain ⟨rfl, h1, h2, h3⟩ := replaceYear_some _ _ _ heq
      exact ⟨rfl, rfl, h1, h3⟩

theorem anniversary_valid (bs : List Char) (dd md yd : Nat)
    (today anniv : Date)
    (h2 : parseDMY bs = some (dd, md, yd))
    (h3 : anniversaryOf ⟨yd, md, dd⟩ today = some anniv) : anniv.Valid := by
  obtain ⟨hd1, hd2, hm1, hm2, hy1, hv⟩ := parseDMY_bounds bs dd md yd h2
  obtain ⟨hfm, hfd, hfy, hfv⟩ := anniversaryOf_fields _ _ _ h3
  exact ⟨hfy, by simp [hfm, hm1], by simp [hfm, hm2], by simp [hfd, hd1], hfv⟩

/-- C1: a record with a (parseable) birthday is included in the
scheduler's output if and only if `0 ≤ daysAhead ≤ 7`, where `daysAhead`
is the day difference from today to the anniversary - the birthday with
its year replaced by today's year, or by next year if that date is
strictly before today (`anniversaryOf`). -/
theorem upcoming_includes_iff (r : Record) (today : Date) (bs : String)
    (dd md yd : Nat) (anniv : Date)
    (h1 : r.birthday = some bs)
    (h2 : parseDMY bs.data = some (dd, md, yd))
    (h3 : anniversaryOf ⟨yd, md, dd⟩ today = some anniv) :
    (∃ e, upcomingOfRecord r today = .ok (some e)) ↔
      (0 ≤ (toOrdinal anniv : Int) - (toOrdinal today : Int) ∧
        (toOrdinal anniv : Int) - (toOrdinal today : Int) ≤ 7) := by
  by_cases hc : (0 ≤ (toOrdinal anniv : Int) - (toOrdinal today : Int) ∧
      (toOrdinal anniv : Int) - (toOrdinal today : Int) ≤ 7)
  · simp only [upcomingOfRecord, h1, h2, h3]
    rw [if_pos hc]
    simp [hc]
  · simp only [upcomingOfRecord, h1, h2, h3]
    rw [if_neg hc]
    simp only [Except.ok.injEq, reduceCtorEq, exists_false, false_iff]
    intro hcc
    exact hc hcc

/-- Witness for C1: a birthday exactly 7 days ahead (April 1st seen from
March 25th, 2024) is included. -/
theorem upcoming_includes_iff_witness :
    upcomingOfRecord ⟨"Ann", [], some "01.04.1990"⟩ ⟨2024, 3, 25⟩ =
      .ok (some ⟨"Ann", "01.04.2024"⟩) := by
  obtain ⟨e, he⟩ :=
    (upcoming_includes_iff ⟨"Ann", [], some "01.04.1990"⟩ ⟨2024, 3, 25⟩
        "01.04.1990" 1 4 1990 ⟨2024, 4, 1⟩ rfl (by decide) (by decide)).mpr
      (by decide)
  rfl

/-- C2: for a record the scheduler includes, the reported congratulation
date is `formatDate` (i.e. `DD.MM.YYYY`) of the weekend-adjusted
anniversary: shifted to the following Monday (weekday 0, one or two days
later) when the anniversary's weekday is 5 or 6, and the anniversary
itself when its weekday is 0..4 (Monday through Friday). -/
theorem congratulation_weekend_shift (r : Record) (today : Date)
    (bs : String) (dd md yd : Nat) (anniv : Date) (e : Entry)
    (h1 : r.birthday = some bs)
    (h2 : parseDMY bs.data = some (dd, md, yd))
    (h3 : anniversaryOf ⟨yd, md, dd⟩ today = some anniv)
    (h4 : upcomingOfRecord r today = .ok (some e)) :
    e = ⟨r.name, formatDate (weekendAdjust anniv)⟩ ∧
    (5 ≤ anniv.weekday →
      (weekendAdjust anniv).weekday = 0 ∧
      toOrdinal anniv < toOrdinal (weekendAdjust anniv) ∧
      toOrdinal (weekendAdjust anniv) ≤ toOrdinal anniv + 2) ∧
    (anniv.weekday < 5 → weekendAdjust anniv = anniv) := by
  have hvalid : anniv.Valid := anniversary_valid bs.data dd md yd today anniv h2 h3
  have hwlt : anniv.weekday < 7 := by
    unfold Date.weekday
    omega
  refine ⟨?_, fun hw => ?_, fun hw => ?_⟩
  · simp only [upcomingOfRecord, h1, h2, h3] at h4
    split at h4
    · injection h4 with h4'
      injection h4' with h4''
      exact h4''.symm
    · simp at h4
  · unfold weekendAdjust
    rw [if_pos hw]
    refine ⟨?_, ?_, ?_⟩
    · rw [weekday_addDays anniv (7 - anniv.weekday) hvalid]
      omega
    · rw [toOrdinal_addDays anniv (7 - anniv.weekday) hvalid]
      omega
    · rw [toOrdinal_addDays anniv (7 - anniv.weekday) hvalid]
      omega
  · unfold weekendAdjust
    rw [if_neg (by omega)]

/-- Witness for C2: a Saturday anniversary (March 30th, 2024) is reported
as the following Monday, April 1st. -/
theorem congratulation_weekend_shift_witness :
    (⟨"Sam", "01.04.2024"⟩ : Entry) =
      ⟨"Sam", formatDate (weekendAdjust ⟨2024, 3, 30⟩)⟩ ∧
    (weekendAdjust ⟨2024, 3, 30⟩).weekday = 0 := by
  have h := congratulation_weekend_shift ⟨"Sam", [], some "30.03.1990"⟩
    ⟨2024, 3, 25⟩ "30.03.1990" 30 3 1990 ⟨2024, 3, 30⟩ ⟨"Sam", "01.04.2024"⟩
    rfl (by decide) (by decide) (by rfl)
  exact ⟨h.1, (h.2.1 (by decide)).1⟩

/-! ## Claim C10: February 29 birthdays in a non-leap year -/

theorem upcomingOfRecord_error_shape (r : Record) (today : Date) (e : PyErr)
    (h : upcomingOfRecord r today = .error e) : ∃ m, e = .valueError m := by
  simp only [upcomingOfRecord] at h
  split at h
  · simp at h
  · split at h
    · exact ⟨_, by injection h with h'; exact h'.symm⟩
    · split at h
      · exact ⟨_, by injection h with h'; exact h'.symm⟩
      · split at h
        · simp at h
        · simp at h

theorem upcoming_feb29_error (r : Record) (today : Date) (bs : String)
    (yd : Nat)
    (hb : r.birthday = some bs)
    (h2 : parseDMY bs.data = some (29, 2, yd))
    (hleap : isLeap today.year = false) :
    upcomingOfRecord r today =
      .error (.valueError "day is out of range for month") := by
  have h28 : daysInMonth today.year 2 = 28 := by
    unfold daysInMonth
    rw [if_neg (by simp [hleap])]
    rfl
  have hrep : replaceYear ⟨yd, 2, 29⟩ today.year = none := by
    unfold replaceYear
    rw [if_neg]
    intro hcon
    rw [show (⟨yd, 2, 29⟩ : Date).day = 29 from rfl,
      show (⟨yd, 2, 29⟩ : Date).month = 2 from rfl] at hcon
    omega
  have hann : anniversaryOf ⟨yd, 2, 29⟩ today = none := by
    simp only [anniversaryOf, hrep]
  simp only [upcomingOfRecord, hb, h2, hann]

/-- C10: when the store holds a record whose birthday is February 29 and
today's year is not a leap year, the year-replacement step raises
`ValueError` (no clamping is done), the whole scheduler run fails, and the
`birthdays` command renders the error message instead of any list. -/
theorem feb29_nonleap_errors (book : AddressBook) (today : Date)
    (r : Record) (bs : String) (yd : Nat)
    (hmem : r ∈ book) (hb : r.birthday = some bs)
    (h2 : parseDMY bs.data = some (29, 2, yd))
    (hleap : isLeap today.year = false) :
    ∃ msg,
      AddressBook.get_upcoming_birthdays book today =
        .error (.valueError msg) ∧
      (∀ l, AddressBook.get_upcoming_birthdays book today ≠ .ok l) ∧
      input_error (birthdays [] book today) book = (msg, book) := by
  have herr := upcoming_feb29_error r today bs yd hb h2 hleap
  have hmain : ∃ msg, AddressBook.get_upcoming_birthdays book today =
      .error (.valueError msg) := by
    clear hb h2
    induction book with
    | nil => cases hmem
    | cons x xs ih =>
      rcases List.mem_cons.mp hmem with rfl | hx
      · refine ⟨"day is out of range for month", ?_⟩
        unfold AddressBook.get_upcoming_birthdays
        rw [herr]
      · cases hhead : upcomingOfRecord x today with
        | error e2 =>
          obtain ⟨m2, rfl⟩ := upcomingOfRecord_error_shape x today e2 hhead
          refine ⟨m2, ?_⟩
          unfold AddressBook.get_upcoming_birthdays
          rw [hhead]
        | ok o =>
          obtain ⟨m, hm⟩ := ih hx
          cases o with
          | none =>
            refine ⟨m, ?_⟩
            unfold AddressBook.get_upcoming_birthdays
            rw [hhead]
            exact hm
          | some entry =>
            refine ⟨m, ?_⟩
            unfold AddressBook.get_upcoming_birthdays
            rw [hhead, hm]
  obtain ⟨msg, hmsg⟩ := hmain
  refine ⟨msg, hmsg, ?_, ?_⟩
  · intro l hl
    rw [hmsg] at hl
    cases hl
  · simp only [birthdays, hmsg, input_error, renderCaught]

/-- Witness for C10: a single record with birthday `29.02.2000` and a
non-leap today (January 1st, 2025) makes the `birthdays` command render
the `ValueError` message. -/
theorem feb29_nonleap_errors_witness :
    input_error
        (birthdays [] [⟨"Leap", [], some "29.02.2000"⟩] ⟨2025, 1, 1⟩)
        [⟨"Leap", [], some "29.02.2000"⟩]
      = ("day is out of range for month",
          [⟨"Leap", [], some "29.02.2000"⟩]) := by
  obtain ⟨msg, h1, h2, h3⟩ :=
    feb29_nonleap_errors [⟨"Leap", [], some "29.02.2000"⟩] ⟨2025, 1, 1⟩
      ⟨"Leap", [], some "29.02.2000"⟩ "29.02.2000" 2000
      (List.mem_singleton.mpr rfl) rfl (by decide) (by decide)
  have he : AddressBook.get_upcoming_birthdays
      [⟨"Leap", [], some "29.02.2000"⟩] ⟨2025, 1, 1⟩ =
      .error (.valueError "day is out of range for month") := by rfl
  rw [h1] at he
  injection he with he'
  injection he' with he''
  rw [he''] at h3
  exact h3

/-! ## Claim C7: the dispatch boundary -/

/-- Whether a loop iteration ended with an uncaught exception. -/
def StepResult.isCrash : StepResult → Bool
  | .crash _ => true
  | _ => false

/-- Counterexample to C7 as stated: the blank input line makes the
unpacking `command, *args = parse_input(user_input)` - which sits outside
every `input_error`-wrapped handler - raise an uncaught `ValueError`, so
this input line does crash the process. -/
theorem dispatch_blank_line_crashes :
    step "" [] ⟨2024, 1, 1⟩ =
      .crash (.valueError
        "not enough values to unpack (expected at least 1, got 0)") := by
  rfl

/-- C7 (amended): on every input line whose whitespace split is nonempty,
every error a handler raises (`KeyError`, `ValueError`, `IndexError` -
covering the spec's ValidationError, NotFoundError and ArgumentError) is
caught by `input_error` and rendered, and the loop iteration never ends in
an uncaught exception. -/
theorem dispatch_no_crash_on_nonblank (line : String) (book : AddressBook)
    (today : Date) (h : parse_input line ≠ []) :
    (step line book today).isCrash = false := by
  unfold step
  cases hp : parse_input line with
  | nil => exact absurd hp h
  | cons c as =>
    simp only [hp]
    repeat' split
    all_goals rfl

/-- Witness for C7's amended theorem at a concrete nonblank line. -/
theorem dispatch_no_crash_on_nonblank_witness :
    (step "hello" [] ⟨2024, 1, 1⟩).isCrash = false :=
  dispatch_no_crash_on_nonblank "hello" [] ⟨2024, 1, 1⟩ (by decide)

/-! ## Claim C8: every reachable phone value is ten digits -/

/-- Every phone value held by every record of the book passes the `Phone`
constructor's validation. -/
def BookPhonesValid (book : AddressBook) : Prop :=
  ∀ r ∈ book, ∀ p ∈ r.phones, phoneOk p = true

theorem add_record_valid (book : AddressBook) (r : Record) :
    BookPhonesValid book → (∀ p ∈ r.phones, phoneOk p = true) →
    BookPhonesValid (AddressBook.add_record book r) := by
  induction book with
  | nil =>
    intro _ hr x hx
    simp [AddressBook.add_record] at hx
    subst hx
    exact hr
  | cons a as ih =>
    intro hb hr x hx
    unfold AddressBook.add_record at hx
    by_cases ha : a.name = r.name
    · rw [if_pos ha] at hx
      rcases List.mem_cons.mp hx with rfl | hx'
      · exact hr
      · exact hb x (List.mem_cons_of_mem a hx')
    · rw [if_neg ha] at hx
      rcases List.mem_cons.mp hx with rfl | hx'
      · exact hb _ (List.mem_cons_self _ _)
      · exact ih (fun y hy => hb y (List.mem_cons_of_mem a hy)) hr x hx'

theorem add_phone_valid (r : Record) (s : String) (r' : Record)
    (h : r.add_phone s = .ok r')
    (hr : ∀ q ∈ r.phones, phoneOk q = true) :
    ∀ q ∈ r'.phones, phoneOk q = true := by
  unfold Record.add_phone at h
  split at h
  · rename_i hp
    injection h with h'
    subst h'
    intro q hq
    rcases List.mem_append.mp hq with hq' | hq'
    · exact hr q hq'
    · rw [List.mem_singleton.mp hq']
      exact hp
  · cases h

theorem edit_phone_valid (r : Record) (o w : String) (r' : Record)
    (h : r.edit_phone o w = .ok r')
    (hr : ∀ q ∈ r.phones, phoneOk q = true) :
    ∀ q ∈ r'.phones, phoneOk q = true := by
  unfold Record.edit_phone at h
  split at h
  · cases h
  · split at h
    · rename_i hnv _
      injection h with h'
      subst h'
      intro q hq
      obtain ⟨q0, hq0, hq0e⟩ := List.mem_map.mp hq
      by_cases he : q0 = o
      · rw [if_pos he] at hq0e
        rw [← hq0e]
        have : phoneOk w = true := by
          by_cases hw : phoneOk w = true
          · exact hw
          · exact absurd (fun x => hw x) hnv
        exact this
      · rw [if_neg he] at hq0e
        rw [← hq0e]
        exact hr q0 hq0
    · cases h

theorem add_birthday_valid (r : Record) (s : String) (r' : Record)
    (h : r.add_birthday s = .ok r')
    (hr : ∀ q ∈ r.phones, phoneOk q = true) :
    ∀ q ∈ r'.phones, phoneOk q = true := by
  unfold Record.add_birthday at h
  split at h
  · injection h with h'
    subst h'
    exact hr
  · cases h

theorem add_contact_preserves (args : List String) (book : AddressBook)
    (hb : BookPhonesValid book) :
    BookPhonesValid (input_error (add_contact args book) book).2 := by
  cases args with
  | nil => exact hb
  | cons n rest =>
    cases rest with
    | nil => exact hb
    | cons p rest2 =>
      cases hf : AddressBook.find book n with
      | none =>
        cases hr : Record.add_phone ⟨n, [], none⟩ p with
        | error e =>
          simp only [add_contact, hf, Option.getD_none, hr, input_error]
          exact hb
        | ok r1 =>
          simp only [add_contact, hf, Option.getD_none, hr, input_error]
          exact add_record_valid book r1 hb
            (add_phone_valid _ p r1 hr (by simp))
      | some r0 =>
        cases hr : Record.add_phone r0 p with
        | error e =>
          simp only [add_contact, hf, Option.getD_some, hr, input_error]
          exact hb
        | ok r1 =>
          simp only [add_contact, hf, Option.getD_some, hr, input_error]
          exact add_record_valid book r1 hb
            (add_phone_valid r0 p r1 hr (hb r0 (find_mem book n r0 hf)))

theorem change_contact_preserves (args : List String) (book : AddressBook)
    (hb : BookPhonesValid book) :
    BookPhonesValid (input_error (change_contact args book) book).2 := by
  cases args with
  | nil => exact hb
  | cons n rest =>
    cases rest with
    | nil => exact hb
    | cons o rest2 =>
      cases rest2 with
      | nil => exact hb
      | cons w rest3 =>
        cases rest3 with
        | cons a rest4 => exact hb
        | nil =>
          cases hf : AddressBook.find book n with
          | none =>
            simp only [change_contact, hf, input_error]
            exact hb
          | some r0 =>
            cases hr : Record.edit_phone r0 o w with
            | error e =>
              simp only [change_contact, hf, hr, input_error]
              exact hb
            | ok r1 =>
              simp only [change_contact, hf, hr, input_error]
              exact add_record_valid book r1 hb
                (edit_phone_valid r0 o w r1 hr
                  (hb r0 (find_mem book n r0 hf)))

theorem add_birthday_preserves (args : List String) (book : AddressBook)
    (hb : BookPhonesValid book) :
    BookPhonesValid (input_error (add_birthday args book) book).2 := by
  cases args with
  | nil => exact hb
  | cons n rest =>
    cases rest with
    | nil => exact hb
    | cons s rest2 =>
      cases rest2 with
      | cons a rest3 => exact hb
      | nil =>
        cases hf : AddressBook.find book n with
        | none =>
          simp only [add_birthday, hf, input_error]
          exact hb
        | some r0 =>
          cases hr : Record.add_birthday r0 s with
          | error e =>
            simp only [add_birthday, hf, hr, input_error]
            exact hb
          | ok r1 =>
            simp only [add_birthday, hf, hr, input_error]
            exact add_record_valid book r1 hb
              (add_birthday_valid r0 s r1 hr
                (hb r0 (find_mem book n r0 hf)))

theorem show_phone_snd (args : List String) (book : AddressBook) :
    (input_error (show_phone args book) book).2 = book := by
  cases args with
  | nil => rfl
  | cons n rest =>
    cases hf : AddressBook.find book n with
    | none => simp only [show_phone, hf, input_error]
    | some r0 => simp only [show_phone, hf, input_error]

theorem show_birthday_snd (args : List String) (book : AddressBook) :
    (input_error (show_birthday args book) book).2 = book := by
  cases args with
  | nil => rfl
  | cons n rest =>
    cases hf : AddressBook.find book n with
    | none => simp only [show_birthday, hf, input_error]
    | some r0 =>
      cases hbd : r0.birthday with
      | none => simp only [show_birthday, hf, hbd, input_error]
      | some b => simp only [show_birthday, hf, hbd, input_error]

theorem birthdays_snd (args : List String) (book : AddressBook)
    (today : Date) :
    (input_error (birthdays args book today) book).2 = book := by
  cases hu : AddressBook.get_upcoming_birthdays book today with
  | error e => simp only [birthdays, hu, input_error]
  | ok l =>
    cases l with
    | nil => simp only [birthdays, hu, input_error]
    | cons x xs => simp only [birthdays, hu, input_error]

theorem step_preserves (line : String) (book : AddressBook) (today : Date)
    (hb : BookPhonesValid book) :
    BookPhonesValid (runLine today book line) := by
  unfold runLine
  cases hs : step line book today with
  | quit m => exact hb
  | crash e => exact hb
  | next m b' =>
    show BookPhonesValid b'
    rcases hp : parse_input line with _ | ⟨c, as⟩ <;>
      simp only [step, hp] at hs
    · cases hs
    · split at hs
      · cases hs
      · split at hs
        · injection hs with h1 h2
          subst h2
          exact hb
        · split at hs
          · injection hs with h1 h2
            subst h2
            exact add_contact_preserves as book hb
          · split at hs
            · injection hs with h1 h2
              subst h2
              exact change_contact_preserves as book hb
            · split at hs
              · injection hs with h1 h2
                subst h2
                rw [show_phone_snd as book]
                exact hb
              · split at hs
                · injection hs with h1 h2
                  subst h2
                  exact hb
                · split at hs
                  · injection hs with h1 h2
                    subst h2
                    exact add_birthday_preserves as book hb
                  · split at hs
                    · injection hs with h1 h2
                      subst h2
                      rw [show_birthday_snd as book]
                      exact hb
                    · split at hs
                      · injection hs with h1 h2
                        subst h2
                        rw [birthdays_snd as book today]
                        exact hb
                      · injection hs with h1 h2
                        subst h2
                        exact hb

theorem run_preserves (today : Date) (lines : List String) :
    ∀ b, BookPhonesValid b →
      BookPhonesValid (lines.foldl (runLine today) b) := by
  induction lines with
  | nil => exact fun b hb => hb
  | cons l ls ih => exact fun b hb => ih _ (step_preserves l b today hb)

/-- C8: in every store state reachable by running `main`'s loop from the
empty book, every phone value held by every record is a string of exactly
10 digits - `add_phone` and `edit_phone` validate through the `Phone`
check before storing, and no other operation touches phone values. -/
theorem reachable_phones_ten_digits (today : Date) (lines : List String) :
    ∀ r ∈ run today lines, ∀ p ∈ r.phones, IsTenDigits p := by
  have hrun := run_preserves today lines [] (fun r hr => absurd hr (by simp))
  intro r hr p hp
  exact (phoneOk_iff p).mp (hrun r hr p hp)

/-- Witness for C8: the phone stored by a concrete `add` session is ten
digits. -/
theorem reachable_phones_ten_digits_witness : IsTenDigits "1112223333" :=
  reachable_phones_ten_digits ⟨2024, 1, 1⟩ ["add Ann 1112223333"]
    ⟨"Ann", ["1112223333"], none⟩ (by decide) "1112223333" (by decide)

end ContactBook
